import Mathlib

/-!
Shallow embedding of `docs/js/copy-as-markdown.js` (the "Copy page as
Markdown" button script).  JavaScript strings are modelled as `List Char`;
the host environment's primitives (the HTTP `fetch` server, `JSON.parse`,
`navigator.clipboard.writeText`) are parameters of the model.  Each
definition names the source function it embeds.
-/

namespace CopyAsMarkdown

/-- Model of JavaScript `s.endsWith(suf)` (and of an anchored `/X$/` regex
test) on `List Char` strings. -/
def jsEndsWith (s suf : List Char) : Bool :=
  decide (suf <:+ s)

/-- Model of `path.replace(/\/$/, "")` (line 56): remove one trailing
slash if present. -/
def stripTrailingSlash (s : List Char) : List Char :=
  if s.getLast? = some '/' then s.dropLast else s

/-- Model of `path.replace(/^\//, "")` (line 63): remove one leading slash
if present. -/
def stripLeadingSlash (s : List Char) : List Char :=
  if s.head? = some '/' then s.tail else s

/-- Model of `s.replace(/suf$/, rep)` for a literal suffix `suf`
(lines 111-112): if `s` ends with `suf`, replace that suffix by `rep`,
otherwise return `s` unchanged. -/
def replaceSuffix (s suf rep : List Char) : List Char :=
  if jsEndsWith s suf then s.take (s.length - suf.length) ++ rep else s

/-- Model of JavaScript `s.indexOf(pat)` for a substring `pat` (line 49):
the first index at which `pat` occurs in `s`, or `none` when it does not
occur (JS returns `-1`). -/
def indexOfSubstr (s pat : List Char) : Option Nat :=
  if pat <+: s then some 0
  else
    match s with
    | [] => none
    | _ :: rest => (indexOfSubstr rest pat).map (· + 1)

/-- The path marker `"docs/docs/"` (line 48). -/
def MARKER : List Char := "docs/docs/".data

/-- The fixed remote base URL `REPO_RAW_BASE` (lines 12-13). -/
def REPO_RAW_BASE : List Char :=
  "https://raw.githubusercontent.com/stanfordnlp/dspy/main/docs/docs/".data

/-- The fallback branch of `getMarkdownPath` (lines 55-72): build the
candidate path from the current navigational path when no usable edit
link exists. -/
def markdownPathFromLocation (pathname : List Char) : List Char :=
  let path := stripTrailingSlash pathname
  if path = [] ∨ path = ['/'] then "index.md".data
  else
    let path' := stripLeadingSlash path
    if jsEndsWith path' ".md".data then path'
    else path' ++ ".md".data

/-- `getMarkdownPath()` (lines 42-73).  `editHref = some h` models the
presence of an anchor `a[title="Edit this page"]` whose `href` attribute
reads `h` (the source substitutes `""` for a missing attribute);
`editHref = none` models the absence of such an anchor. -/
def getMarkdownPath (editHref : Option (List Char)) (pathname : List Char) :
    List Char :=
  match editHref with
  | some href =>
    match indexOfSubstr href MARKER with
    | some idx => href.drop (idx + MARKER.length)
    | none => markdownPathFromLocation pathname
  | none => markdownPathFromLocation pathname

/-- One cell of a parsed notebook JSON object (`nb.cells[i]`).  `source`
is `none` when the cell has no `source` field (the code substitutes `[]`
via `cell.source || []`). -/
structure NotebookCell where
  cell_type : List Char
  source : Option (List (List Char))
deriving DecidableEq

/-- A parsed notebook JSON object.  `cells` is `none` when the object has
no `cells` field (the code substitutes `[]` via `nb.cells || []`). -/
structure Notebook where
  cells : Option (List NotebookCell)
deriving DecidableEq

/-- `(cell.source || []).join("")` (line 32): the cell's text, the
concatenation of its source lines, empty when the field is absent. -/
def cellText (c : NotebookCell) : List Char :=
  (c.source.getD []).flatten

/-- The fenced code block built for a code cell (line 36). -/
def fenceCode (src : List Char) : List Char :=
  "```python\n".data ++ src ++ "\n```".data

/-- `notebookToMarkdown()` (lines 26-40), past the `JSON.parse` step: the
loop pushes, for each cell in order, the markdown text or the fenced code
block onto `parts`, skipping other kinds, and the result is
`parts.join("\n\n")`. -/
def notebookToMarkdown (nb : Notebook) : List Char :=
  let cells := nb.cells.getD []
  let parts := cells.foldl
    (fun acc cell =>
      if cell.cell_type = "markdown".data then acc ++ [cellText cell]
      else if cell.cell_type = "code".data then acc ++ [fenceCode (cellText cell)]
      else acc)
    []
  List.intercalate "\n\n".data parts

/-- Rendering of a cell list written as the spec describes it: visit the
cells in order, emit the text of a markdown cell literally, the fenced
block for a code cell, nothing for any other kind. -/
def renderCellsSpec : List NotebookCell → List (List Char)
  | [] => []
  | c :: cs =>
    if c.cell_type = "markdown".data then cellText c :: renderCellsSpec cs
    else if c.cell_type = "code".data then fenceCode (cellText c) :: renderCellsSpec cs
    else renderCellsSpec cs

/-- The spec's description of notebook normalisation: the fragments of
`renderCellsSpec`, joined with exactly one blank line between them. -/
def normalizeNotebookSpec (nb : Notebook) : List Char :=
  List.intercalate "\n\n".data (renderCellsSpec (nb.cells.getD []))

/-- The alternate path built on a primary fetch failure (lines 109-112):
replace a trailing `.ipynb` by `/index.ipynb`, otherwise a trailing `.md`
by `/index.md`. -/
def altPathOf (mdPath : List Char) : List Char :=
  if jsEndsWith mdPath ".ipynb".data then
    replaceSuffix mdPath ".ipynb".data "/index.ipynb".data
  else
    replaceSuffix mdPath ".md".data "/index.md".data

/-- The normalisation step (lines 124-128): when the actually used path
ends in `.ipynb`, parse the text as a notebook and convert it; otherwise
the text passes through unchanged.  `parse` models the host `JSON.parse`;
`none` models a parse error (a thrown exception). -/
def normalizeText (parse : List Char → Option Notebook)
    (text actualPath : List Char) : Option (List Char) :=
  if jsEndsWith actualPath ".ipynb".data then
    (parse text).map notebookToMarkdown
  else some text

/-- The user-visible terminal state of one button click
(`showFeedback`, lines 139-148). -/
inductive CopyOutcome
  | success
  | failed
deriving DecidableEq

/-- Observable trace of one `copyMarkdown` invocation: the URLs requested
in order, how many times the normalisation step (the second `.then`
handler) ran, whether notebook conversion was applied, the arguments
passed to the clipboard write, and the terminal state. -/
structure CopyResult where
  requests : List (List Char)
  normalizeRuns : Nat
  converted : Bool
  publishes : List (List Char)
  outcome : CopyOutcome
deriving DecidableEq

/-- The tail of the promise chain after a successful fetch
(lines 124-136): normalise the text for the actually used path, write the
result to the clipboard, and report; a parse error or a clipboard
rejection is caught and reported as the failed state. -/
def afterFetch (parse : List Char → Option Notebook) (clipboardOk : Bool)
    (text actualPath : List Char) (reqs : List (List Char)) : CopyResult :=
  match normalizeText parse text actualPath with
  | some t =>
    { requests := reqs
      normalizeRuns := 1
      converted := jsEndsWith actualPath ".ipynb".data
      publishes := [t]
      outcome := if clipboardOk then CopyOutcome.success else CopyOutcome.failed }
  | none =>
    { requests := reqs
      normalizeRuns := 1
      converted := jsEndsWith actualPath ".ipynb".data
      publishes := []
      outcome := CopyOutcome.failed }

/-- `copyMarkdown()` (lines 99-137).  `server url = some text` models a
2xx response with body `text`; `server url = none` models a non-success
status.  `clipboardOk` models whether `navigator.clipboard.writeText`
resolves.  On a primary failure exactly one retry is issued against the
alternate path, and the alternate path replaces `mdPath` for the notebook
check; a failure of both requests is caught and reported as failed. -/
def copyMarkdown (server : List Char → Option (List Char))
    (parse : List Char → Option Notebook) (clipboardOk : Bool)
    (editHref : Option (List Char)) (pathname : List Char) : CopyResult :=
  let mdPath := getMarkdownPath editHref pathname
  let url := REPO_RAW_BASE ++ mdPath
  match server url with
  | some text => afterFetch parse clipboardOk text mdPath [url]
  | none =>
    let altPath := altPathOf mdPath
    let altUrl := REPO_RAW_BASE ++ altPath
    match server altUrl with
    | some text => afterFetch parse clipboardOk text altPath [url, altUrl]
    | none =>
      { requests := [url, altUrl]
        normalizeRuns := 0
        converted := false
        publishes := []
        outcome := CopyOutcome.failed }

/-- The primary URL requested by `copyMarkdown` (lines 100-101). -/
def primaryUrl (editHref : Option (List Char)) (pathname : List Char) :
    List Char :=
  REPO_RAW_BASE ++ getMarkdownPath editHref pathname

/-- The alternate URL requested after a primary failure (line 113). -/
def alternateUrl (editHref : Option (List Char)) (pathname : List Char) :
    List Char :=
  REPO_RAW_BASE ++ altPathOf (getMarkdownPath editHref pathname)

/-! ### Helper lemmas -/

lemma jsEndsWith_eq_true {s suf : List Char} :
    jsEndsWith s suf = true ↔ suf <:+ s := by
  simp [jsEndsWith]

lemma jsEndsWith_eq_false {s suf : List Char} :
    jsEndsWith s suf = false ↔ ¬ suf <:+ s := by
  simp [jsEndsWith]

lemma afterFetch_requests (parse : List Char → Option Notebook)
    (clipboardOk : Bool) (text actualPath : List Char)
    (reqs : List (List Char)) :
    (afterFetch parse clipboardOk text actualPath reqs).requests = reqs := by
  unfold afterFetch
  cases h : normalizeText parse text actualPath <;> simp

lemma afterFetch_converted (parse : List Char → Option Notebook)
    (clipboardOk : Bool) (text actualPath : List Char)
    (reqs : List (List Char)) :
    (afterFetch parse clipboardOk text actualPath reqs).converted
      = jsEndsWith actualPath ".ipynb".data := by
  unfold afterFetch
  cases h : normalizeText parse text actualPath <;> simp

lemma afterFetch_outcome_of_clip_false (parse : List Char → Option Notebook)
    (text actualPath : List Char) (reqs : List (List Char)) :
    (afterFetch parse false text actualPath reqs).outcome
      = CopyOutcome.failed := by
  unfold afterFetch
  cases h : normalizeText parse text actualPath <;> simp

lemma copyMarkdown_of_primary_none
    (server : List Char → Option (List Char))
    (parse : List Char → Option Notebook) (clipboardOk : Bool)
    (editHref : Option (List Char)) (pathname : List Char)
    (h : server (primaryUrl editHref pathname) = none) :
    copyMarkdown server parse clipboardOk editHref pathname
      = match server (alternateUrl editHref pathname) with
        | some text =>
          afterFetch parse clipboardOk text
            (altPathOf (getMarkdownPath editHref pathname))
            [primaryUrl editHref pathname, alternateUrl editHref pathname]
        | none =>
          { requests := [primaryUrl editHref pathname,
                         alternateUrl editHref pathname]
            normalizeRuns := 0
            converted := false
            publishes := []
            outcome := CopyOutcome.failed } := by
  unfold primaryUrl alternateUrl at *
  simp only [copyMarkdown]
  rw [h]

lemma copyMarkdown_of_primary_some
    (server : List Char → Option (List Char))
    (parse : List Char → Option Notebook) (clipboardOk : Bool)
    (editHref : Option (List Char)) (pathname : List Char)
    (text : List Char)
    (h : server (primaryUrl editHref pathname) = some text) :
    copyMarkdown server parse clipboardOk editHref pathname
      = afterFetch parse clipboardOk text (getMarkdownPath editHref pathname)
          [primaryUrl editHref pathname] := by
  unfold primaryUrl at *
  simp only [copyMarkdown]
  rw [h]

lemma copyMarkdown_head_request
    (server : List Char → Option (List Char))
    (parse : List Char → Option Notebook) (clipboardOk : Bool)
    (editHref : Option (List Char)) (pathname : List Char) :
    (copyMarkdown server parse clipboardOk editHref pathname).requests.head?
      = some (primaryUrl editHref pathname) := by
  cases h1 : server (primaryUrl editHref pathname) with
  | some text =>
    rw [copyMarkdown_of_primary_some server parse clipboardOk editHref
      pathname text h1, afterFetch_requests]
    rfl
  | none =>
    rw [copyMarkdown_of_primary_none server parse clipboardOk editHref
      pathname h1]
    cases h2 : server (alternateUrl editHref pathname) <;>
      simp [afterFetch_requests]

lemma foldl_parts_eq_renderCellsSpec (cells : List NotebookCell)
    (acc : List (List Char)) :
    cells.foldl
      (fun acc cell =>
        if cell.cell_type = "markdown".data then acc ++ [cellText cell]
        else if cell.cell_type = "code".data then
          acc ++ [fenceCode (cellText cell)]
        else acc)
      acc
      = acc ++ renderCellsSpec cells := by
  induction cells generalizing acc with
  | nil => simp [renderCellsSpec]
  | cons c cs ih =>
    simp only [List.foldl_cons, renderCellsSpec]
    by_cases h1 : c.cell_type = "markdown".data
    · simp [h1, ih]
    · by_cases h2 : c.cell_type = "code".data
      · simp [h1, h2, ih]
      · simp [h1, h2, ih]

/-! ### Claim theorems -/

/-- Claim C1: on a notebook document, `notebookToMarkdown` visits the cells in
their original order, emits a markdown cell's text literally, a code
cell's text wrapped in a fenced block labeled with the source language,
and nothing for any other kind, and joins the fragments with exactly one
blank line — i.e. it coincides with the rendering the spec describes —
and the two-cell example notebook normalizes to
`"# Title\n\n```python\nprint(1)\n```"`. -/
theorem notebookToMarkdown_matches_spec :
    (∀ nb : Notebook, notebookToMarkdown nb = normalizeNotebookSpec nb) ∧
    notebookToMarkdown
        { cells := some
            [ { cell_type := "markdown".data, source := some ["# Title".data] },
              { cell_type := "code".data, source := some ["print(1)".data] } ] }
      = "# Title\n\n```python\nprint(1)\n```".data := by
  constructor
  · intro nb
    simp only [notebookToMarkdown, normalizeNotebookSpec]
    rw [foldl_parts_eq_renderCellsSpec]
    simp
  · decide

/-- Claim C7: on the root navigational path (`"/"` or the empty string) with no
edit link present, `getMarkdownPath` returns the fixed default document
name `"index.md"`.  (`getMarkdownPath` is a total function of the model,
so it always produces a value and has no error condition.) -/
theorem resolvePath_root_default :
    getMarkdownPath none "/".data = "index.md".data ∧
    getMarkdownPath none [] = "index.md".data := by
  constructor
  · decide
  · decide

/-- Claim C9: notebook conversion tolerates missing optional fields: a notebook
whose `cells` field is absent (and likewise one with an empty cell list)
normalizes to the empty string, and a cell whose `source` field is absent
contributes empty text; the conversion itself is a total function of the
parsed value, so only the (host) JSON parse can fail. -/
theorem notebook_missing_fields_safe :
    notebookToMarkdown { cells := none } = [] ∧
    notebookToMarkdown { cells := some [] } = [] ∧
    (∀ ct : List Char, cellText { cell_type := ct, source := none } = []) ∧
    notebookToMarkdown
        { cells := some [{ cell_type := "markdown".data, source := none }] }
      = [] := by
  refine ⟨by decide, by decide, ?_, by decide⟩
  intro ct
  simp [cellText]

/-- Claim C2: when the primary fetch returns a non-success status,
`copyMarkdown` requests exactly one alternate URL — the one obtained by
replacing the trailing source extension with its directory-index variant
— and nothing further; and when that alternate request succeeds, the
alternate path is the one the rest of the chain uses, so it is the
alternate path's extension that decides whether notebook conversion
applies. -/
theorem fetch_retries_alternate_once
    (server : List Char → Option (List Char))
    (parse : List Char → Option Notebook) (clipboardOk : Bool)
    (editHref : Option (List Char)) (pathname : List Char)
    (hfail : server (primaryUrl editHref pathname) = none) :
    (copyMarkdown server parse clipboardOk editHref pathname).requests
        = [primaryUrl editHref pathname, alternateUrl editHref pathname] ∧
    ∀ text : List Char,
      server (alternateUrl editHref pathname) = some text →
        copyMarkdown server parse clipboardOk editHref pathname
            = afterFetch parse clipboardOk text
                (altPathOf (getMarkdownPath editHref pathname))
                [primaryUrl editHref pathname,
                 alternateUrl editHref pathname] ∧
        (copyMarkdown server parse clipboardOk editHref pathname).converted
            = jsEndsWith (altPathOf (getMarkdownPath editHref pathname))
                ".ipynb".data := by
  rw [copyMarkdown_of_primary_none server parse clipboardOk editHref
    pathname hfail]
  constructor
  · cases h2 : server (alternateUrl editHref pathname) with
    | some text => exact afterFetch_requests parse clipboardOk text _ _
    | none => rfl
  · intro text h2
    rw [h2]
    exact ⟨rfl, afterFetch_converted parse clipboardOk text _ _⟩

/-- Witness for C2: a server that 404s the primary URL for `/guide` and
serves the directory-index alternate; exactly the two URLs are requested
and no notebook conversion applies (the alternate ends in `.md`). -/
theorem fetch_retries_alternate_once_witness :
    (copyMarkdown
        (fun u =>
          if u = "https://raw.githubusercontent.com/stanfordnlp/dspy/main/docs/docs/guide/index.md".data
          then some "hello".data else none)
        (fun _ => none) true none "/guide".data).requests
      = ["https://raw.githubusercontent.com/stanfordnlp/dspy/main/docs/docs/guide.md".data,
         "https://raw.githubusercontent.com/stanfordnlp/dspy/main/docs/docs/guide/index.md".data] ∧
    (copyMarkdown
        (fun u =>
          if u = "https://raw.githubusercontent.com/stanfordnlp/dspy/main/docs/docs/guide/index.md".data
          then some "hello".data else none)
        (fun _ => none) true none "/guide".data).converted = false := by
  have h := fetch_retries_alternate_once
    (fun u =>
      if u = "https://raw.githubusercontent.com/stanfordnlp/dspy/main/docs/docs/guide/index.md".data
      then some "hello".data else none)
    (fun _ => none) true none "/guide".data (by decide)
  exact ⟨h.1.trans (by decide),
    ((h.2 "hello".data (by decide)).2).trans (by decide)⟩

/-- Claim C3: when both the primary and the alternate retrieval fail, the
invocation ends in the single failed state with the normalisation step
never run and nothing written to the clipboard; and a clipboard rejection
collapses into the same user-visible failed state (the model is a total
function, so no error escapes uncaught). -/
theorem both_failures_collapse
    (server : List Char → Option (List Char))
    (parse : List Char → Option Notebook) (clipboardOk : Bool)
    (editHref : Option (List Char)) (pathname : List Char) :
    (server (primaryUrl editHref pathname) = none →
      server (alternateUrl editHref pathname) = none →
      copyMarkdown server parse clipboardOk editHref pathname
        = { requests := [primaryUrl editHref pathname,
                         alternateUrl editHref pathname]
            normalizeRuns := 0
            converted := false
            publishes := []
            outcome := CopyOutcome.failed }) ∧
    (clipboardOk = false →
      (copyMarkdown server parse clipboardOk editHref pathname).outcome
        = CopyOutcome.failed) := by
  constructor
  · intro h1 h2
    rw [copyMarkdown_of_primary_none server parse clipboardOk editHref
      pathname h1, h2]
  · intro hc
    subst hc
    cases h1 : server (primaryUrl editHref pathname) with
    | some text =>
      rw [copyMarkdown_of_primary_some server parse false editHref pathname
        text h1]
      exact afterFetch_outcome_of_clip_false parse text _ _
    | none =>
      rw [copyMarkdown_of_primary_none server parse false editHref
        pathname h1]
      cases h2 : server (alternateUrl editHref pathname) with
      | some text => exact afterFetch_outcome_of_clip_false parse text _ _
      | none => rfl

/-- Witness for C3: with a server that rejects every URL, the click on
`/guide` fails without normalising or publishing; and with a working
server but a denied clipboard, the outcome is the same failed state. -/
theorem both_failures_collapse_witness :
    copyMarkdown (fun _ => none) (fun _ => none) true none "/guide".data
      = { requests :=
            ["https://raw.githubusercontent.com/stanfordnlp/dspy/main/docs/docs/guide.md".data,
             "https://raw.githubusercontent.com/stanfordnlp/dspy/main/docs/docs/guide/index.md".data]
          normalizeRuns := 0
          converted := false
          publishes := []
          outcome := CopyOutcome.failed } ∧
    (copyMarkdown (fun _ => some "body".data) (fun _ => none) false none
        "/guide".data).outcome = CopyOutcome.failed := by
  refine ⟨?_, ?_⟩
  · exact ((both_failures_collapse (fun _ => none) (fun _ => none) true none
      "/guide".data).1 rfl rfl).trans (by decide)
  · exact (both_failures_collapse (fun _ => some "body".data) (fun _ => none)
      false none "/guide".data).2 rfl

lemma indexOfSubstr_drop (s pat : List Char) (i : Nat)
    (h : indexOfSubstr s pat = some i) : pat <+: s.drop i := by
  induction s generalizing i with
  | nil =>
    unfold indexOfSubstr at h
    split at h
    · next hp =>
      injection h with h0
      subst h0
      simpa using hp
    · simp at h
  | cons a rest ih =>
    unfold indexOfSubstr at h
    split at h
    · next hp =>
      injection h with h0
      subst h0
      simpa using hp
    · simp only [Option.map_eq_some'] at h
      obtain ⟨j, hj, rfl⟩ := h
      simpa using ih j hj

/-- Claim C4: when the edit-source hyperlink's target contains the marker
`"docs/docs/"`, `getMarkdownPath` returns the substring of the target
after the first occurrence of the marker, and the subsequent fetch's
first request is the fixed remote base concatenated with exactly that
substring. -/
theorem editlink_marker_extraction
    (server : List Char → Option (List Char))
    (parse : List Char → Option Notebook) (clipboardOk : Bool)
    (href pathname : List Char) (i : Nat)
    (h : indexOfSubstr href MARKER = some i) :
    getMarkdownPath (some href) pathname = href.drop (i + MARKER.length) ∧
    MARKER <+: href.drop i ∧
    (copyMarkdown server parse clipboardOk (some href) pathname).requests.head?
      = some (REPO_RAW_BASE ++ href.drop (i + MARKER.length)) := by
  have hg : getMarkdownPath (some href) pathname
      = href.drop (i + MARKER.length) := by
    simp [getMarkdownPath, h]
  refine ⟨hg, indexOfSubstr_drop href MARKER i h, ?_⟩
  rw [copyMarkdown_head_request]
  unfold primaryUrl
  rw [hg]

/-- Witness for C4: a page whose edit link targets
`.../docs/docs/api/Foo.md` resolves to `api/Foo.md` and the first request
goes to the fixed base URL concatenated with `api/Foo.md`. -/
theorem editlink_marker_extraction_witness :
    getMarkdownPath
        (some "https://github.com/stanfordnlp/dspy/blob/main/docs/docs/api/Foo.md".data)
        "/some/page/".data
      = "api/Foo.md".data ∧
    (copyMarkdown (fun _ => none) (fun _ => none) true
        (some "https://github.com/stanfordnlp/dspy/blob/main/docs/docs/api/Foo.md".data)
        "/some/page/".data).requests.head?
      = some "https://raw.githubusercontent.com/stanfordnlp/dspy/main/docs/docs/api/Foo.md".data := by
  have h := editlink_marker_extraction (fun _ => none) (fun _ => none) true
    "https://github.com/stanfordnlp/dspy/blob/main/docs/docs/api/Foo.md".data
    "/some/page/".data 46 (by decide)
  exact ⟨h.1.trans (by decide), h.2.2.trans (by decide)⟩

/-- Claim C5 as stated is false: a navigational path that ends in `.md` but
starts with a slash is not returned unchanged — the leading slash is
stripped. -/
theorem resolvePath_md_unchanged_counterexample :
    getMarkdownPath none "/x.md".data ≠ "/x.md".data := by decide

/-- Claim C5 amended: with no edit link present, a navigational path ending in
`.md` is returned with its leading slash stripped (if any) and is
otherwise unchanged — no extension is appended. -/
theorem resolvePath_md_strips_leading_slash
    (p : List Char) (h : jsEndsWith p ".md".data = true) :
    getMarkdownPath none p = stripLeadingSlash p := by
  have hsuf : ".md".data <:+ p := jsEndsWith_eq_true.mp h
  obtain ⟨t, ht⟩ := hsuf
  have hmd : ".md".data = ['.', 'm', 'd'] := by decide
  have hlast : p.getLast? = some 'd' := by
    rw [← ht, hmd, show t ++ ['.', 'm', 'd'] = (t ++ ['.', 'm']) ++ ['d'] by simp,
      List.getLast?_concat]
  have h1 : stripTrailingSlash p = p := by
    unfold stripTrailingSlash
    rw [hlast]
    simp
  have h2 : ¬ (p = [] ∨ p = ['/']) := by
    rintro (rfl | rfl) <;> simp at hlast
  have h3 : jsEndsWith (stripLeadingSlash p) ".md".data = true := by
    rw [jsEndsWith_eq_true]
    unfold stripLeadingSlash
    by_cases hh : p.head? = some '/'
    · rw [if_pos hh]
      cases p with
      | nil => simp at hh
      | cons c rest =>
        simp only [List.head?_cons, Option.some.injEq] at hh
        subst hh
        cases t with
        | nil =>
          rw [hmd] at ht
          simp at ht
        | cons a t' =>
          refine ⟨t', ?_⟩
          have h5 := ht
          rw [List.cons_append] at h5
          injection h5 with h6 htl
    · rw [if_neg hh]
      exact ⟨t, ht⟩
  show markdownPathFromLocation p = stripLeadingSlash p
  simp only [markdownPathFromLocation, h1]
  rw [if_neg h2, if_pos h3]

/-- Witness for C5 (amended): the path `/x.md` resolves to `x.md`. -/
theorem resolvePath_md_strips_leading_slash_witness :
    getMarkdownPath none "/x.md".data = "x.md".data := by
  exact (resolvePath_md_strips_leading_slash "/x.md".data (by decide)).trans
    (by decide)

/-- Claim C6: with no edit link present, a navigational path that starts with a
slash and has neither a trailing slash nor the `.md` extension resolves
by stripping the leading slash and appending `.md`. -/
theorem resolvePath_appends_extension
    (rest : List Char)
    (h1 : ('/' :: rest).getLast? ≠ some '/')
    (h2 : jsEndsWith ('/' :: rest) ".md".data = false) :
    getMarkdownPath none ('/' :: rest) = rest ++ ".md".data := by
  have hstrip : stripTrailingSlash ('/' :: rest) = '/' :: rest := by
    unfold stripTrailingSlash
    rw [if_neg h1]
  have hne : ¬ ('/' :: rest = [] ∨ '/' :: rest = ['/']) := by
    rintro (h | h)
    · cases h
    · injection h with _ h0
      subst h0
      exact h1 rfl
  have hlead : stripLeadingSlash ('/' :: rest) = rest := by
    simp [stripLeadingSlash]
  have h3 : jsEndsWith rest ".md".data = false := by
    rw [jsEndsWith_eq_false] at h2 ⊢
    intro hsuf
    exact h2 (hsuf.trans (List.suffix_cons '/' rest))
  show markdownPathFromLocation ('/' :: rest) = rest ++ ".md".data
  simp only [markdownPathFromLocation, hstrip]
  rw [if_neg hne, hlead, h3]
  simp

/-- Witness for C6: `/guide/intro` resolves to `guide/intro.md`. -/
theorem resolvePath_appends_extension_witness :
    getMarkdownPath none "/guide/intro".data = "guide/intro.md".data := by
  exact (resolvePath_appends_extension "guide/intro".data (by decide)
    (by decide)).trans (by decide)

/-- Claim C8: when the actually used path does not carry the notebook
extension, the normalisation step is the identity on the raw text, and is
therefore idempotent on such input. -/
theorem normalize_identity_non_notebook
    (parse : List Char → Option Notebook) (text actualPath : List Char)
    (h : jsEndsWith actualPath ".ipynb".data = false) :
    normalizeText parse text actualPath = some text ∧
    (normalizeText parse text actualPath).bind
        (fun t => normalizeText parse t actualPath)
      = normalizeText parse text actualPath := by
  have hid : normalizeText parse text actualPath = some text := by
    simp [normalizeText, h]
  refine ⟨hid, ?_⟩
  rw [hid]
  simp [normalizeText, h]

/-- Witness for C8: plain text fetched for a `.md` path passes through
the normalisation step unchanged, and re-normalising gives the same
result. -/
theorem normalize_identity_non_notebook_witness :
    normalizeText (fun _ => none) "hello world".data "guide.md".data
      = some "hello world".data ∧
    (normalizeText (fun _ => none) "hello world".data "guide.md".data).bind
        (fun t => normalizeText (fun _ => none) t "guide.md".data)
      = normalizeText (fun _ => none) "hello world".data "guide.md".data := by
  exact normalize_identity_non_notebook (fun _ => none) "hello world".data
    "guide.md".data (by decide)

/-- Claim C10: a candidate path that ends in neither `.md` nor `.ipynb` is its
own alternate path — both suffix replacements miss — so after a primary
failure the single retry requests exactly the same URL again. -/
theorem no_extension_retry_same_url
    (p pathname : List Char) (server : List Char → Option (List Char))
    (parse : List Char → Option Notebook) (clipboardOk : Bool)
    (h1 : jsEndsWith p ".md".data = false)
    (h2 : jsEndsWith p ".ipynb".data = false)
    (hfail : server (REPO_RAW_BASE ++ p) = none) :
    altPathOf p = p ∧
    (copyMarkdown server parse clipboardOk (some (MARKER ++ p))
        pathname).requests
      = [REPO_RAW_BASE ++ p, REPO_RAW_BASE ++ p] := by
  have halt : altPathOf p = p := by
    simp [altPathOf, replaceSuffix, h1, h2]
  have hidx : indexOfSubstr (MARKER ++ p) MARKER = some 0 := by
    unfold indexOfSubstr
    rw [if_pos (List.prefix_append MARKER p)]
  have hget : getMarkdownPath (some (MARKER ++ p)) pathname = p := by
    simp [getMarkdownPath, hidx]
  have hprim : primaryUrl (some (MARKER ++ p)) pathname
      = REPO_RAW_BASE ++ p := by
    unfold primaryUrl
    rw [hget]
  have halturl : alternateUrl (some (MARKER ++ p)) pathname
      = REPO_RAW_BASE ++ p := by
    unfold alternateUrl
    rw [hget, halt]
  refine ⟨halt, ?_⟩
  rw [copyMarkdown_of_primary_none server parse clipboardOk _ pathname
    (by rw [hprim]; exact hfail)]
  rw [halturl, hfail, hprim]

/-- Witness for C10: for the extension-less candidate `foo.txt` (reached
through an edit link) and a server that rejects everything, both requests
go to the same URL. -/
theorem no_extension_retry_same_url_witness :
    altPathOf "foo.txt".data = "foo.txt".data ∧
    (copyMarkdown (fun _ => none) (fun _ => none) true
        (some ("docs/docs/foo.txt".data)) "/x".data).requests
      = ["https://raw.githubusercontent.com/stanfordnlp/dspy/main/docs/docs/foo.txt".data,
         "https://raw.githubusercontent.com/stanfordnlp/dspy/main/docs/docs/foo.txt".data] := by
  have h := no_extension_retry_same_url "foo.txt".data "/x".data
    (fun _ => none) (fun _ => none) true (by decide) (by decide) rfl
  exact ⟨h.1, h.2.trans (by decide)⟩

end CopyAsMarkdown
